import Mathlib

/-!
Verification of the bulk-send edge function of the pillar-pulse admin portal
(`supabase/functions/send-email/index.ts`).

The JavaScript/TypeScript source is shallowly embedded below: pure helper
functions (`sanitizeHtml`, `validateEmailInput`, `checkRateLimit`,
`logAdminAction`) become Lean functions on `String` / `List Char`; the
request handler (`serve`) becomes a function from an explicit record of
collaborator behaviours (identity verifier, admin allow-list, directory
store, SMTP transport) to an observable outcome (HTTP status, audit-log
action names, whether the directory was queried, how many transport calls
were made).  JavaScript strings are modelled as Lean strings; a promise
that never settles is modelled by `Option`/`none` at the dispatch level.
-/

namespace PillarPulse

/-! ## Character classes and basic string utilities (JS semantics) -/

/-- The character set matched by the JavaScript regex class `\s` (which is
also the set stripped by `String.prototype.trim`). -/
def isJsWs (c : Char) : Bool :=
  c = ' ' || c = '\t' || c = '\n' || c = '\r' ||
  c = Char.ofNat 11 || c = Char.ofNat 12 || c = Char.ofNat 160 ||
  c = Char.ofNat 0x1680 || (0x2000 ≤ c.toNat && c.toNat ≤ 0x200A) ||
  c = Char.ofNat 0x2028 || c = Char.ofNat 0x2029 || c = Char.ofNat 0x202F ||
  c = Char.ofNat 0x205F || c = Char.ofNat 0x3000 || c = Char.ofNat 0xFEFF

/-- The character set matched by the JavaScript regex class `\w`:
`[A-Za-z0-9_]`. -/
def isWordChar (c : Char) : Bool :=
  c.isAlpha || c.isDigit || c = '_'

/-- Embeds `String.prototype.trim` on a character list. -/
def jsTrim (l : List Char) : List Char :=
  ((l.dropWhile isJsWs).reverse.dropWhile isJsWs).reverse

/-- Embeds `str.substring(0, n)` (for our uses the string is ASCII, so code units
and code points coincide). -/
def jsTake (n : Nat) (s : String) : String :=
  ⟨s.data.take n⟩

/-- Case-sensitive: does `s` start with `pat`? -/
def startsWithCL : List Char → List Char → Bool
  | [], _ => true
  | _ :: _, [] => false
  | p :: ps, c :: cs => p = c && startsWithCL ps cs

/-- Case-sensitive raw substring containment. -/
def containsSub (pat : List Char) : List Char → Bool
  | [] => startsWithCL pat []
  | c :: cs => startsWithCL pat (c :: cs) || containsSub pat cs

/-- Does `s` start with `pat` up to ASCII case (`pat` is given in lower
case)?  This models matching a fixed pattern under the JS `i` flag. -/
def matchCIAt : List Char → List Char → Bool
  | [], _ => true
  | _ :: _, [] => false
  | p :: ps, c :: cs => c.toLower = p && matchCIAt ps cs

/-- Case-insensitive substring containment (pattern in lower case). -/
def containsCIAux (pat : List Char) : List Char → Bool
  | [] => matchCIAt pat []
  | c :: cs => matchCIAt pat (c :: cs) || containsCIAux pat cs

/-- Case-insensitive substring containment, string-level wrapper. -/
def containsCI (pat : String) (l : List Char) : Bool :=
  containsCIAux pat.data l

/-! ## `sanitizeHtml` (index.ts lines 13-33)

The source applies, in order: eight global single-character entity escapes
(`& < > " ' / \x60 =`), three case-insensitive literal removals
(`javascript:`, `data:`, `vbscript:`), and three case-insensitive regex
removals (`<script[^>]*>.*?<\/script>`, `on\w+\s*=\s*["'][^"']*["']`,
`on\w+\s*=\s*[^>\s]+`).  A global `String.replace` is a single
left-to-right pass over the current string: after a match it resumes
after the matched text and never rescans the text it has already
emitted. -/

/-- Global single-character replacement: `str.replace(/c/g, rep)`. -/
def replaceChar (c : Char) (rep : List Char) : List Char → List Char
  | [] => []
  | d :: rest =>
    if d = c then rep ++ replaceChar c rep rest else d :: replaceChar c rep rest

/-- The eight entity-escape passes of `sanitizeHtml`, in source order. -/
def escapePass (l : List Char) : List Char :=
  replaceChar '=' "&#x3D;".data
    (replaceChar '\x60' "&#x60;".data
      (replaceChar '/' "&#x2F;".data
        (replaceChar '\'' "&#x27;".data
          (replaceChar '"' "&quot;".data
            (replaceChar '>' "&gt;".data
              (replaceChar '<' "&lt;".data
                (replaceChar '&' "&amp;".data l)))))))

/-- One pass of `str.replace(/pat/gi, '')` for a literal pattern `pat`
(given lower-cased), driven by a fuel argument that starts at the string
length (each step consumes at least one character, so the fuel never runs
out). -/
def removeCIAux (pat : List Char) : Nat → List Char → List Char
  | _, [] => []
  | 0, s => s
  | fuel + 1, c :: cs =>
    if matchCIAt pat (c :: cs) then
      removeCIAux pat fuel (List.drop pat.length (c :: cs))
    else
      c :: removeCIAux pat fuel cs

/-- Embeds `str.replace(/pat/gi, '')` for a literal pattern. -/
def removeCI (pat : String) (s : List Char) : List Char :=
  removeCIAux pat.data s.length s

/-- The regex piece `\s*` : skip a (possibly empty) run of whitespace. -/
def skipWs (l : List Char) : List Char := l.dropWhile isJsWs

/-- Line terminators, which JS regex `.` (without the `s` flag) does not
match. -/
def isLineTerm (c : Char) : Bool :=
  c = '\n' || c = '\r' || c = Char.ofNat 0x2028 || c = Char.ofNat 0x2029

/-- The lazy `.*?<\/script>` part of the script-tag regex: scan forward for
the closing tag; `.` cannot cross a line terminator.  Returns the rest of
the string after the close tag, or `none` if the attempt fails. -/
def findCloseLazy : Nat → List Char → Option (List Char)
  | _, [] => none
  | 0, _ => none
  | fuel + 1, c :: cs =>
    if matchCIAt "<\x2Fscript>".data (c :: cs) then
      some (List.drop 9 (c :: cs))
    else if isLineTerm c then none
    else findCloseLazy fuel cs

/-- After the literal `<script`: consume `[^>]*`, then `>`, then the lazy
search for the close tag. -/
def afterScriptOpen : List Char → Option (List Char)
  | [] => none
  | c :: cs => if c = '>' then findCloseLazy cs.length cs else afterScriptOpen cs

/-- Attempt the regex `<script[^>]*>.*?<\/script>` at the head of `s`,
returning the rest of the string on success. -/
def tryScriptAt (s : List Char) : Option (List Char) :=
  if matchCIAt "<script".data s then afterScriptOpen (List.drop 7 s) else none

/-- Attribute-value matcher `\s*["'][^"']*["']` for the first
event-handler regex, applied right after the `=`. -/
def attrVal1 (s : List Char) : Option (List Char) :=
  match skipWs s with
  | [] => none
  | c :: cs =>
    if c = '"' || c = '\'' then
      match cs.dropWhile (fun d => !(d = '"' || d = '\'')) with
      | [] => none
      | _ :: rest => some rest
    else none

/-- Attribute-value matcher `\s*[^>\s]+` for the second event-handler
regex, applied right after the `=`. -/
def attrVal2 (s : List Char) : Option (List Char) :=
  match skipWs s with
  | [] => none
  | c :: cs =>
    if !(c = '>') && !isJsWs c then
      some (cs.dropWhile (fun d => !(d = '>') && !isJsWs d))
    else none

/-- Attempt `on\w+\s*=` followed by the given attribute-value matcher at
the head of `s`.  `\w+` is greedy, and since a word character can be
neither whitespace nor `=`, only the maximal run can ever succeed. -/
def tryOnAt (val : List Char → Option (List Char)) (s : List Char) :
    Option (List Char) :=
  match s with
  | c1 :: c2 :: c3 :: rest =>
    if c1.toLower = 'o' && c2.toLower = 'n' && isWordChar c3 then
      match skipWs (rest.dropWhile isWordChar) with
      | '=' :: r2 => val r2
      | _ => none
    else none
  | _ => none

/-- One pass of `str.replace(/re/gi, '')` for a regex with match attempt
function `tryAt`: scan left to right, drop each leftmost match, resume
after it. -/
def removeRxAux (tryAt : List Char → Option (List Char)) :
    Nat → List Char → List Char
  | _, [] => []
  | 0, s => s
  | fuel + 1, c :: cs =>
    match tryAt (c :: cs) with
    | some rest => removeRxAux tryAt fuel rest
    | none => c :: removeRxAux tryAt fuel cs

/-- Embeds `str.replace(/re/gi, '')`. -/
def removeRx (tryAt : List Char → Option (List Char)) (s : List Char) :
    List Char :=
  removeRxAux tryAt s.length s

/-- Embeds `sanitizeHtml` on a character list: the full pipeline of index.ts
lines 16-32. -/
def sanitizeHtmlL (l : List Char) : List Char :=
  removeRx (tryOnAt attrVal2)
    (removeRx (tryOnAt attrVal1)
      (removeRx tryScriptAt
        (removeCI "vbscript:"
          (removeCI "data:"
            (removeCI "javascript:" (escapePass l))))))

/-- Embeds `sanitizeHtml(input)` (index.ts lines 13-33).  The guard
`if (!input || typeof input !== 'string') return ''` reduces, on string
inputs, to returning `''` on the empty string. -/
def sanitizeHtml (s : String) : String :=
  if s = "" then "" else ⟨sanitizeHtmlL s.data⟩

/-! ## `validateEmailInput` (index.ts lines 36-88) -/

/-- A character of the class `[a-zA-Z0-9\s\-_]` used by the pillar regex
(`Char.isAlpha`/`Char.isDigit` are the ASCII ranges, as in the regex). -/
def isPillarChar (c : Char) : Bool :=
  c.isAlpha || c.isDigit || isJsWs c || c = '-' || c = '_'

/-- Embeds `/^[a-zA-Z0-9\s\-_]+$/.test(pillar)`. -/
def pillarRegexTest (s : String) : Bool :=
  !s.data.isEmpty && s.data.all isPillarChar

/-- Embeds `!!(x?.trim())` for a string: does `x` trim to a non-empty string? -/
def trimNonempty (s : String) : Bool :=
  !(jsTrim s.data).isEmpty

/-- The `\s*=` tail of the suspicious pattern `/on\w+\s*=/i`: skip whitespace,
then require `=`. -/
def wsEqHere : List Char → Bool
  | [] => false
  | c :: cs => if c = '=' then true else if isJsWs c then wsEqHere cs else false

/-- After the first `\w` of `on\w+\s*=`: keep consuming word characters,
then match `\s*=`. -/
def wordRunThenWsEq : List Char → Bool
  | [] => false
  | c :: cs => if isWordChar c then wordRunThenWsEq cs else wsEqHere (c :: cs)

/-- Attempt `/on\w+\s*=/i` at the head of the list. -/
def onHandlerAt : List Char → Bool
  | c1 :: c2 :: c3 :: rest =>
    c1.toLower = 'o' && c2.toLower = 'n' && isWordChar c3 && wordRunThenWsEq rest
  | _ => false

/-- Embeds `/on\w+\s*=/i.test(s)`. -/
def onHandlerMatch : List Char → Bool
  | [] => false
  | c :: cs => onHandlerAt (c :: cs) || onHandlerMatch cs

/-- The `\s*\(` tail of `/eval\s*\(/i` and `/expression\s*\(/i`. -/
def wsParenHere : List Char → Bool
  | [] => false
  | c :: cs => if c = '(' then true else if isJsWs c then wsParenHere cs else false

/-- Embeds `/kw\s*\(/i.test(s)` for a literal keyword `kw` (lower-cased). -/
def kwParenMatchAux (kw : List Char) : List Char → Bool
  | [] => false
  | c :: cs =>
    (matchCIAt kw (c :: cs) && wsParenHere (List.drop kw.length (c :: cs))) ||
      kwParenMatchAux kw cs

/-- The `suspiciousPatterns` loop of `validateEmailInput` (lines 63-85):
true iff any of the thirteen patterns matches. -/
def suspiciousMatch (s : String) : Bool :=
  let l := s.data
  containsCI "<script" l || containsCI "javascript:" l || onHandlerMatch l ||
  containsCI "<iframe" l || containsCI "<object" l || containsCI "<embed" l ||
  containsCI "<form" l || containsCI "data:" l || containsCI "vbscript:" l ||
  containsCI "<link" l || containsCI "<meta" l ||
  kwParenMatchAux "eval".data l || kwParenMatchAux "expression".data l

/-- Embeds `validateEmailInput(pillar, subject, content)` (index.ts lines 36-88).
Lengths are counted in code points; all inputs of interest are ASCII, where
this agrees with the JS code-unit count.  The `typeof` guards are
identically true in a string-typed model. -/
def validateEmailInput (pillar subject content : String) : List String :=
  let e1 : List String :=
    if !trimNonempty pillar then ["Pillar is required"]
    else if pillar.length > 100 then ["Invalid pillar format"]
    else if !pillarRegexTest pillar then ["Pillar contains invalid characters"]
    else []
  let e2 : List String :=
    if !trimNonempty subject then ["Subject is required"]
    else if subject.length > 200 then ["Subject must be less than 200 characters"]
    else []
  let e3 : List String :=
    if !trimNonempty content then ["Content is required"]
    else if content.length > 10000 then ["Content must be less than 10,000 characters"]
    else []
  let e4 : List String :=
    if suspiciousMatch (subject ++ " " ++ content) then
      ["Content contains potentially unsafe elements"]
    else []
  e1 ++ e2 ++ e3 ++ e4

/-- The §3 constraints exactly as the claim words them (spec side of the
refinement comparison, not translated from the code): `pillar` matches
`^[A-Za-z0-9\s\-_]{1,100}$`; `subject` non-empty and at most 200
characters; `content` non-empty and at most 10000 characters; the combined
`subject + " " + content` matches no dangerous-markup denylist pattern. -/
def spec3Holds (pillar subject content : String) : Bool :=
  (1 ≤ pillar.length && pillar.length ≤ 100 && pillar.data.all isPillarChar) &&
  (!(subject = "") && subject.length ≤ 200) &&
  (!(content = "") && content.length ≤ 10000) &&
  !suspiciousMatch (subject ++ " " ++ content)

/-- The exact condition under which `validateEmailInput` returns no error,
read off the code: every field trims to something non-empty, lengths are
in bounds, the pillar passes its character regex, and no denylist pattern
matches. -/
def codeValid (pillar subject content : String) : Bool :=
  trimNonempty pillar && pillar.length ≤ 100 && pillarRegexTest pillar &&
  trimNonempty subject && subject.length ≤ 200 &&
  trimNonempty content && content.length ≤ 10000 &&
  !suspiciousMatch (subject ++ " " ++ content)

/-! ## Rate limiter (index.ts lines 90-110)

`rateLimitMap` keys records by user id; each call reads and updates only
the caller's record, so the per-key behaviour is a state transformer on
`Option RateRecord` with the current time as input. -/

/-- One entry of `rateLimitMap`. -/
structure RateRecord where
  count : Nat
  resetTime : Nat
deriving DecidableEq

/-- The constant `RATE_LIMIT_WINDOW = 15 * 60 * 1000`. -/
def RATE_LIMIT_WINDOW : Nat := 15 * 60 * 1000

/-- The constant `RATE_LIMIT_MAX_REQUESTS = 10`. -/
def RATE_LIMIT_MAX_REQUESTS : Nat := 10

/-- Embeds `checkRateLimit(userId)` acting on the caller's map entry: returns the
allow/deny decision and the entry after the call. -/
def checkRateLimit (now : Nat) (st : Option RateRecord) : Bool × RateRecord :=
  match st with
  | none => (true, ⟨1, now + RATE_LIMIT_WINDOW⟩)
  | some r =>
    if now > r.resetTime then (true, ⟨1, now + RATE_LIMIT_WINDOW⟩)
    else if r.count ≥ RATE_LIMIT_MAX_REQUESTS then (false, r)
    else (true, ⟨r.count + 1, r.resetTime⟩)

/-- A sequence of `checkRateLimit` calls at the given times, starting from
the given entry; returns the decisions in order and the final entry. -/
def runRateCalls (times : List Nat) (st : Option RateRecord) :
    List Bool × Option RateRecord :=
  match times with
  | [] => ([], st)
  | t :: ts =>
    let p := checkRateLimit t st
    let q := runRateCalls ts (some p.2)
    (p.1 :: q.1, q.2)

/-! ## Dispatch engine (index.ts lines 294-393) -/

/-- One employee row as selected by the directory query
(`select('name, email')` on the `employees` table filtered by `pillar`). -/
structure Employee where
  name : String
  email : String
  pillar : String
deriving DecidableEq

/-- One per-recipient result object. -/
structure SendResult where
  success : Bool
  email : String
  error : Option String
deriving DecidableEq

/-- The observable behaviour of one `smtpClient.send` call: resolve,
reject with an error, or never settle.  The source wraps the call in no
timeout, so a never-settling promise has to be represented explicitly. -/
inductive TransportOutcome where
  | ok : TransportOutcome
  | raise : String → TransportOutcome
  | hang : TransportOutcome
deriving DecidableEq

/-- The regex `/^[^\s@]+@[^\s@]+\.[^\s@]+$/`, the recipient email re-validation of
index.ts line 311: the tail has a `.` that is neither its first nor its
last character. -/
def dotNotLast : List Char → Bool
  | [] => false
  | [_] => false
  | c :: cs => c = '.' || dotNotLast cs

/-- A maximal `[^\s@]+` block: non-empty, no whitespace, no `@`. -/
def atomOk (l : List Char) : Bool :=
  !l.isEmpty && l.all (fun c => !isJsWs c && !(c = '@'))

/-- Embeds `emailRegex.test(email)`: exactly one `@`; non-empty no-whitespace
local part; non-empty no-whitespace domain containing an inner dot. -/
def emailRegexTest (s : String) : Bool :=
  match s.data.splitOn '@' with
  | [x, y] =>
    atomOk x && atomOk y &&
      (match y with
       | [] => false
       | _ :: rest => dotNotLast rest)
  | _ => false

/-- The body of one element of `emailPromises` (lines 308-368): the
`try` block validates the stored email, then awaits the transport; any
thrown error is caught and becomes `{success:false, error:'Send failed'}`.
`none` means the underlying transport call never settles, so neither does
this promise. -/
def sendOne (t : Employee → TransportOutcome) (emp : Employee) :
    Option SendResult :=
  if emailRegexTest emp.email then
    match t emp with
    | .ok => some ⟨true, emp.email, none⟩
    | .raise _ => some ⟨false, emp.email, some "Send failed"⟩
    | .hang => none
  else some ⟨false, emp.email, some "Send failed"⟩

/-- Embeds `Promise.all`: settles with the list of results iff every component
promise settles. -/
def promiseAll : List (Option SendResult) → Option (List SendResult)
  | [] => some []
  | o :: os =>
    match o with
    | none => none
    | some r =>
      match promiseAll os with
      | none => none
      | some rs => some (r :: rs)

/-- Embeds `const results = await Promise.all(emailPromises)` (line 370). -/
def sendEmails (t : Employee → TransportOutcome) (emps : List Employee) :
    Option (List SendResult) :=
  promiseAll (emps.map (sendOne t))

/-- Embeds `results.filter(r => r.success).length` (line 371). -/
def successCount (rs : List SendResult) : Nat :=
  (rs.filter (fun r => r.success)).length

/-- Embeds `results.filter(r => !r.success).length` (line 372). -/
def failureCount (rs : List SendResult) : Nat :=
  (rs.filter (fun r => !r.success)).length

/-! ## Audit recorder `logAdminAction` (index.ts lines 113-140) -/

/-- The request headers the recorder reads (`null` headers are `none`). -/
structure AuditReqMeta where
  userAgent : Option String
  forwardedFor : Option String
  realIp : Option String

/-- The `details` argument: either an object (carried as its
`JSON.stringify` serialization) or any other value (carried as its
`String(...)` rendering). -/
inductive DetailsV where
  | obj : String → DetailsV
  | prim : String → DetailsV

/-- The row handed to `.insert` on `admin_audit_log`; `detailsSer` is the
serialized form of the `details` column. -/
structure AuditRecord where
  admin_user_id : String
  action : String
  detailsSer : String
  ip_address : String
  user_agent : String
deriving DecidableEq

/-- Result of an awaited external call: resolves or rejects. -/
inductive CallOutcome where
  | ok : CallOutcome
  | reject : String → CallOutcome

/-- Embeds `(req.headers.get('user-agent') || 'Unknown').substring(0, 500)`. -/
def uaOf (m : AuditReqMeta) : String :=
  jsTake 500 (match m.userAgent with
    | some u => if u = "" then "Unknown" else u
    | none => "Unknown")

/-- Embeds `(forwardedFor?.split(',')[0]?.trim() || realIp || 'Unknown')
.substring(0, 45)`. -/
def clientIp (m : AuditReqMeta) : String :=
  let s1 : String :=
    match m.forwardedFor with
    | some f => ⟨jsTrim (f.data.takeWhile (fun c => !(c = ',')))⟩
    | none => ""
  let s2 : String :=
    if s1 = "" then (match m.realIp with | some r => r | none => "") else s1
  let s3 : String := if s2 = "" then "Unknown" else s2
  jsTake 45 s3

/-- Embeds `JSON.parse(JSON.stringify(details).substring(0, 1000))` for objects
(`jsonOk` says whether the runtime accepts the truncated text; `none`
models the throw), `sanitizeHtml(String(details)).substring(0, 1000)`
otherwise. -/
def detailsSerialize (jsonOk : String → Bool) : DetailsV → Option String
  | .obj ser => let t := jsTake 1000 ser; if jsonOk t then some t else none
  | .prim s => some (jsTake 1000 (sanitizeHtml s))

/-- The `try` block of `logAdminAction`: any step may throw
(`Except.error`); on success it reports the row it inserted, or `none`
when the insert resolved with an error object that the code ignores. -/
def logAdminActionTry (store : AuditRecord → CallOutcome)
    (jsonOk : String → Bool) (userId action : String) (details : DetailsV)
    (m : AuditReqMeta) : Except String (Option AuditRecord) :=
  let ua := uaOf m
  let ip := clientIp m
  let act := jsTake 100 (sanitizeHtml action)
  match detailsSerialize jsonOk details with
  | none => Except.error "JSON parse failure"
  | some ds =>
    let row : AuditRecord := ⟨userId, act, ds, ip, ua⟩
    match store row with
    | .ok => Except.ok (some row)
    | .reject msg => Except.error msg

/-- Embeds `logAdminAction` as its caller sees it: the surrounding
`try { ... } catch (error) { console.error(...) }` turns every failure
into a normal return. -/
def logAdminAction (store : AuditRecord → CallOutcome)
    (jsonOk : String → Bool) (userId action : String) (details : DetailsV)
    (m : AuditReqMeta) : Except String (Option AuditRecord) :=
  match logAdminActionTry store jsonOk userId action details m with
  | Except.ok r => Except.ok r
  | Except.error _ => Except.ok none

/-! ## Request orchestrator `serve` (index.ts lines 168-419) -/

/-- The outcome of an awaited supabase query: row data or an error
object (supabase resolves with `{data, error}` instead of throwing). -/
inductive DbResult (α : Type) where
  | ok : α → DbResult α
  | err : DbResult α

/-- Everything the handler observes from its environment and
collaborators during one request. -/
structure ServeInput where
  method : String
  envOk : Bool
  authHeader : Option String
  authTimedOut : Bool
  authUser : DbResult String
  now : Nat
  rateState : Option RateRecord
  adminErr : Bool
  adminData : Option Unit
  body : Option (String × String × String)
  directory : DbResult (List Employee)
  gmailUser : Option String
  gmailPassword : Option String
  smtpConnect : CallOutcome
  smtpClose : CallOutcome
  transport : Employee → TransportOutcome

/-- The observable outcome of one request: HTTP status, the audit-log
action names written (in order), whether the employees query was issued,
whether the SMTP fan-out ran, how many transport invocations were made,
and the `recipients`/`failures` fields of a 200 body. -/
structure ServeOutput where
  status : Nat
  audits : List String
  dirQueried : Bool
  dispatched : Bool
  transportCalls : Nat
  recipientsField : Option Nat
  failuresField : Option Nat
  simulated : Bool
deriving DecidableEq

/-- An error response together with the audit trail so far. -/
def errOut (status : Nat) (audits : List String) (dirQ : Bool) : ServeOutput :=
  ⟨status, audits, dirQ, false, 0, none, none, false⟩

/-- The check `token.length < 10 || !token` after
`authHeader.replace('Bearer ', '').trim()`; the handler only reaches this
once `startsWith('Bearer ')` holds, so the replaced occurrence is the
prefix. -/
def tokenOf (hdr : String) : String :=
  ⟨jsTrim (hdr.data.drop 7)⟩

/-- The employees query (lines 261-265): equality filter on `pillar`,
`.limit(1000)`. -/
def employeesQuery (rows : List Employee) (pillar : String) : List Employee :=
  (rows.filter (fun e => e.pillar = pillar)).take 1000

/-- The guard `if (gmailUser && gmailPassword)` — JS truthiness, so a present but
empty variable falls to the simulation branch. -/
def credsPresent (u p : Option String) : Bool :=
  match u, p with
  | some us, some ps => !(us = "") && !(ps = "")
  | _, _ => false

/-- Lines 261-411 of the handler: recipient resolution for an
already-validated body, the distinct error/empty/oversize outcomes, and
the dispatch or simulation branch.  The value is `none` when the request
never completes (the dispatch awaits a transport promise that never
settles — there is no timeout around the sends). -/
def resolveAndDispatch (inp : ServeInput) (pillar : String) : Option ServeOutput :=
  match inp.directory with
  | .err => some (errOut 500 ["email_database_error"] true)
  | .ok rows =>
    let employees := employeesQuery rows pillar
    if employees.isEmpty then
      some (errOut 404 ["email_no_recipients"] true)
    else if employees.length > 500 then
      some (errOut 400 ["email_too_many_recipients"] true)
    else if credsPresent inp.gmailUser inp.gmailPassword then
      match inp.smtpConnect with
      | .reject _ => some ⟨500, ["email_send_initiated"], true, false, 0, none, none, false⟩
      | .ok =>
        match sendEmails inp.transport employees with
        | none => none
        | some results =>
          let calls := (employees.filter (fun e => emailRegexTest e.email)).length
          match inp.smtpClose with
          | .reject _ =>
            some ⟨500, ["email_send_initiated"], true, true, calls, none, none, false⟩
          | .ok =>
            some ⟨200, ["email_send_initiated", "email_send_completed"], true, true,
              calls, some (successCount results), some (failureCount results), false⟩
    else
      some ⟨200, ["email_send_initiated", "email_send_simulated"], true, false, 0,
        some employees.length, none, true⟩

/-- The request handler (lines 168-419). -/
def serve (inp : ServeInput) : Option ServeOutput :=
  if inp.method = "OPTIONS" then some ⟨200, [], false, false, 0, none, none, false⟩
  else if !(inp.method = "POST") then some (errOut 405 [] false)
  else if !inp.envOk then some (errOut 500 [] false)
  else
    match inp.authHeader with
    | none => some (errOut 401 [] false)
    | some hdr =>
      if !startsWithCL "Bearer ".data hdr.data then some (errOut 401 [] false)
      else if tokenOf hdr = "" || (tokenOf hdr).length < 10 then
        some (errOut 401 [] false)
      else if inp.authTimedOut then
        -- the 5s auth timeout rejects; the outer catch answers 500
        some (errOut 500 [] false)
      else
        match inp.authUser with
        | .err => some (errOut 401 ["unauthorized_email_attempt"] false)
        | .ok userId =>
          if userId = "" then some (errOut 401 ["unauthorized_email_attempt"] false)
          else if !(checkRateLimit inp.now inp.rateState).1 then
            some (errOut 429 ["rate_limit_exceeded"] false)
          else if inp.adminErr || inp.adminData.isNone then
            some (errOut 403 ["unauthorized_email_attempt"] false)
          else
            match inp.body with
            | none => some (errOut 400 ["invalid_request_body"] false)
            | some (pillar, subject, content) =>
              if !(validateEmailInput pillar subject content = []) then
                some (errOut 400 ["email_validation_failed"] false)
              else
                resolveAndDispatch inp pillar

/-! ## Concrete fixtures used by witnesses -/

/-- A request in which every check passes: POST, configured environment,
well-formed bearer token, authenticated admin user, fresh rate-limit
state, valid body, a directory with two matching employees, Gmail
credentials present, and a transport that always resolves. -/
def baseInp : ServeInput :=
  ⟨"POST", true, some "Bearer tok1234567890", false, DbResult.ok "u1", 0, none,
   false, some (), some ("Eng", "Update", "Hello team"),
   DbResult.ok [⟨"A", "a@x.co", "Eng"⟩, ⟨"B", "b@x.co", "Eng"⟩, ⟨"C", "c@x.co", "Ops"⟩],
   some "g@x.co", some "pw", CallOutcome.ok, CallOutcome.ok, fun _ => TransportOutcome.ok⟩

/-- Five recipients with valid addresses, as in the fan-out isolation
scenario. -/
def fiveEmps : List Employee :=
  [⟨"E1", "e1@x.co", "Eng"⟩, ⟨"E2", "e2@x.co", "Eng"⟩, ⟨"E3", "e3@x.co", "Eng"⟩,
   ⟨"E4", "e4@x.co", "Eng"⟩, ⟨"E5", "e5@x.co", "Eng"⟩]

/-- A transport that throws for recipient #3 only. -/
def failThird (e : Employee) : TransportOutcome :=
  if e.email = "e3@x.co" then TransportOutcome.raise "boom" else TransportOutcome.ok

/-! ## Lemmas about the sanitizer -/

theorem replaceChar_not_mem {x c : Char} {rep : List Char} (l : List Char)
    (h1 : x ∉ rep) (h2 : x = c ∨ x ∉ l) : x ∉ replaceChar c rep l := by
  induction l with
  | nil => simp [replaceChar]
  | cons d rest ih =>
    have h2' : x = c ∨ x ∉ rest := by
      rcases h2 with h | h
      · exact Or.inl h
      · exact Or.inr fun hr => h (List.mem_cons_of_mem _ hr)
    simp only [replaceChar]
    split
    · intro hmem
      rcases List.mem_append.mp hmem with h | h
      · exact h1 h
      · exact ih h2' h
    · next hd =>
      intro hmem
      rcases List.mem_cons.mp hmem with h | h
      · subst h
        rcases h2 with h | h
        · exact hd h
        · exact h (List.mem_cons_self _ _)
      · exact ih h2' h

theorem escapePass_no_lt (l : List Char) : '<' ∉ escapePass l := by
  unfold escapePass
  apply replaceChar_not_mem _ (by decide) (Or.inr ?_)
  apply replaceChar_not_mem _ (by decide) (Or.inr ?_)
  apply replaceChar_not_mem _ (by decide) (Or.inr ?_)
  apply replaceChar_not_mem _ (by decide) (Or.inr ?_)
  apply replaceChar_not_mem _ (by decide) (Or.inr ?_)
  apply replaceChar_not_mem _ (by decide) (Or.inr ?_)
  exact replaceChar_not_mem _ (by decide) (Or.inl rfl)

theorem escapePass_no_gt (l : List Char) : '>' ∉ escapePass l := by
  unfold escapePass
  apply replaceChar_not_mem _ (by decide) (Or.inr ?_)
  apply replaceChar_not_mem _ (by decide) (Or.inr ?_)
  apply replaceChar_not_mem _ (by decide) (Or.inr ?_)
  apply replaceChar_not_mem _ (by decide) (Or.inr ?_)
  apply replaceChar_not_mem _ (by decide) (Or.inr ?_)
  exact replaceChar_not_mem _ (by decide) (Or.inl rfl)

theorem escapePass_no_quot (l : List Char) : '"' ∉ escapePass l := by
  unfold escapePass
  apply replaceChar_not_mem _ (by decide) (Or.inr ?_)
  apply replaceChar_not_mem _ (by decide) (Or.inr ?_)
  apply replaceChar_not_mem _ (by decide) (Or.inr ?_)
  apply replaceChar_not_mem _ (by decide) (Or.inr ?_)
  exact replaceChar_not_mem _ (by decide) (Or.inl rfl)

theorem escapePass_no_apos (l : List Char) : '\'' ∉ escapePass l := by
  unfold escapePass
  apply replaceChar_not_mem _ (by decide) (Or.inr ?_)
  apply replaceChar_not_mem _ (by decide) (Or.inr ?_)
  apply replaceChar_not_mem _ (by decide) (Or.inr ?_)
  exact replaceChar_not_mem _ (by decide) (Or.inl rfl)

theorem escapePass_no_slash (l : List Char) : '/' ∉ escapePass l := by
  unfold escapePass
  apply replaceChar_not_mem _ (by decide) (Or.inr ?_)
  apply replaceChar_not_mem _ (by decide) (Or.inr ?_)
  exact replaceChar_not_mem _ (by decide) (Or.inl rfl)

theorem escapePass_no_tick (l : List Char) : '\x60' ∉ escapePass l := by
  unfold escapePass
  apply replaceChar_not_mem _ (by decide) (Or.inr ?_)
  exact replaceChar_not_mem _ (by decide) (Or.inl rfl)

theorem escapePass_no_eq (l : List Char) : '=' ∉ escapePass l := by
  unfold escapePass
  exact replaceChar_not_mem _ (by decide) (Or.inl rfl)

theorem removeCIAux_subset (pat : List Char) (fuel : Nat) (l : List Char) :
    removeCIAux pat fuel l ⊆ l := by
  induction fuel generalizing l with
  | zero => cases l <;> simp [removeCIAux]
  | succ n ih =>
    cases l with
    | nil => simp [removeCIAux]
    | cons c cs =>
      simp only [removeCIAux]
      split
      · exact (ih _).trans (List.drop_subset _ _)
      · exact List.cons_subset_cons _ (ih _)

theorem removeRxAux_subset (tryAt : List Char → Option (List Char))
    (hsub : ∀ s r, tryAt s = some r → r ⊆ s) (fuel : Nat) (l : List Char) :
    removeRxAux tryAt fuel l ⊆ l := by
  induction fuel generalizing l with
  | zero => cases l <;> simp [removeRxAux]
  | succ n ih =>
    cases l with
    | nil => simp [removeRxAux]
    | cons c cs =>
      simp only [removeRxAux]
      split
      · next rest h => exact (ih _).trans (hsub _ _ h)
      · exact List.cons_subset_cons _ (ih _)

theorem findCloseLazy_subset (fuel : Nat) (l r : List Char)
    (h : findCloseLazy fuel l = some r) : r ⊆ l := by
  induction fuel generalizing l with
  | zero => cases l <;> simp [findCloseLazy] at h
  | succ n ih =>
    cases l with
    | nil => simp [findCloseLazy] at h
    | cons c cs =>
      simp only [findCloseLazy] at h
      split at h
      · injection h with h
        exact h ▸ List.drop_subset _ _
      · split at h
        · exact absurd h (by simp)
        · exact (ih _ h).trans (List.subset_cons_self _ _)

theorem afterScriptOpen_subset (l r : List Char)
    (h : afterScriptOpen l = some r) : r ⊆ l := by
  induction l with
  | nil => simp [afterScriptOpen] at h
  | cons c cs ih =>
    simp only [afterScriptOpen] at h
    split at h
    · exact (findCloseLazy_subset _ _ _ h).trans (List.subset_cons_self _ _)
    · exact (ih h).trans (List.subset_cons_self _ _)

theorem tryScriptAt_subset (l r : List Char)
    (h : tryScriptAt l = some r) : r ⊆ l := by
  unfold tryScriptAt at h
  split at h
  · exact (afterScriptOpen_subset _ _ h).trans (List.drop_subset _ _)
  · exact absurd h (by simp)

theorem skipWs_subset (l : List Char) : skipWs l ⊆ l :=
  (List.dropWhile_sublist _).subset

theorem attrVal1_subset (l r : List Char) (h : attrVal1 l = some r) : r ⊆ l := by
  unfold attrVal1 at h
  split at h
  · exact absurd h (by simp)
  · next c cs heq =>
    split at h
    · split at h
      · exact absurd h (by simp)
      · next d rest heq2 =>
        injection h with h
        subst h
        have h1 : rest ⊆ cs := by
          have hs := (List.dropWhile_sublist
            (fun d => !(d = '"' || d = '\'')) (l := cs)).subset
          rw [heq2] at hs
          exact (List.subset_cons_self _ _).trans hs
        have h2 : cs ⊆ l := fun x hx =>
          skipWs_subset l (heq ▸ List.mem_cons_of_mem _ hx)
        exact h1.trans h2
    · exact absurd h (by simp)

theorem attrVal2_subset (l r : List Char) (h : attrVal2 l = some r) : r ⊆ l := by
  unfold attrVal2 at h
  split at h
  · exact absurd h (by simp)
  · next c cs heq =>
    split at h
    · injection h with h
      subst h
      have h1 : cs.dropWhile (fun d => !(d = '>') && !isJsWs d) ⊆ cs :=
        (List.dropWhile_sublist _).subset
      have h2 : cs ⊆ l := fun x hx =>
        skipWs_subset l (heq ▸ List.mem_cons_of_mem _ hx)
      exact h1.trans h2
    · exact absurd h (by simp)

theorem tryOnAt_subset (val : List Char → Option (List Char))
    (hval : ∀ s r, val s = some r → r ⊆ s)
    (l r : List Char) (h : tryOnAt val l = some r) : r ⊆ l := by
  unfold tryOnAt at h
  split at h
  · next c1 c2 c3 rest =>
    split at h
    · split at h
      · next r2 heq =>
        have hr : r ⊆ r2 := hval _ _ h
        have h1 : r2 ⊆ skipWs (rest.dropWhile isWordChar) := by
          rw [heq]; exact List.subset_cons_self _ _
        have h2 : skipWs (rest.dropWhile isWordChar) ⊆ rest :=
          (skipWs_subset _).trans (List.dropWhile_sublist _).subset
        intro x hx
        exact List.mem_cons_of_mem _ (List.mem_cons_of_mem _
          (List.mem_cons_of_mem _ (h2 (h1 (hr hx)))))
      · exact absurd h (by simp)
    · exact absurd h (by simp)
  · exact absurd h (by simp)

theorem sanitizeHtmlL_not_mem {x : Char} (l : List Char)
    (h : x ∉ escapePass l) : x ∉ sanitizeHtmlL l := by
  unfold sanitizeHtmlL
  intro hx
  apply h
  apply removeCIAux_subset
  apply removeCIAux_subset
  apply removeCIAux_subset
  have s4 := removeRxAux_subset tryScriptAt tryScriptAt_subset
  have s5 := removeRxAux_subset (tryOnAt attrVal1) (tryOnAt_subset _ attrVal1_subset)
  have s6 := removeRxAux_subset (tryOnAt attrVal2) (tryOnAt_subset _ attrVal2_subset)
  exact s4 _ _ (s5 _ _ (s6 _ _ hx))

theorem startsWithCL_head_mem {p : Char} {ps l : List Char}
    (h : startsWithCL (p :: ps) l = true) : p ∈ l := by
  cases l with
  | nil => simp [startsWithCL] at h
  | cons c cs =>
    simp only [startsWithCL, Bool.and_eq_true, decide_eq_true_eq] at h
    exact h.1 ▸ List.mem_cons_self _ _

theorem containsSub_head_mem {p : Char} {ps l : List Char}
    (h : containsSub (p :: ps) l = true) : p ∈ l := by
  induction l with
  | nil => simp [containsSub, startsWithCL] at h
  | cons c cs ih =>
    simp only [containsSub, Bool.or_eq_true] at h
    rcases h with h | h
    · exact startsWithCL_head_mem h
    · exact List.mem_cons_of_mem _ (ih h)

theorem wsEqHere_eq_mem {l : List Char} (h : wsEqHere l = true) : '=' ∈ l := by
  induction l with
  | nil => simp [wsEqHere] at h
  | cons c cs ih =>
    simp only [wsEqHere] at h
    split at h
    · next hc => exact hc ▸ List.mem_cons_self _ _
    · split at h
      · exact List.mem_cons_of_mem _ (ih h)
      · exact absurd h (by simp)

theorem wordRunThenWsEq_eq_mem {l : List Char}
    (h : wordRunThenWsEq l = true) : '=' ∈ l := by
  induction l with
  | nil => simp [wordRunThenWsEq] at h
  | cons c cs ih =>
    simp only [wordRunThenWsEq] at h
    split at h
    · exact List.mem_cons_of_mem _ (ih h)
    · exact wsEqHere_eq_mem h

theorem onHandlerAt_eq_mem {l : List Char} (h : onHandlerAt l = true) : '=' ∈ l := by
  match l with
  | [] => simp [onHandlerAt] at h
  | [_] => simp [onHandlerAt] at h
  | [_, _] => simp [onHandlerAt] at h
  | c1 :: c2 :: c3 :: rest =>
    simp only [onHandlerAt, Bool.and_eq_true] at h
    exact List.mem_cons_of_mem _ (List.mem_cons_of_mem _
      (List.mem_cons_of_mem _ (wordRunThenWsEq_eq_mem h.2)))

theorem onHandlerMatch_eq_mem {l : List Char}
    (h : onHandlerMatch l = true) : '=' ∈ l := by
  induction l with
  | nil => simp [onHandlerMatch] at h
  | cons c cs ih =>
    simp only [onHandlerMatch, Bool.or_eq_true] at h
    rcases h with h | h
    · exact onHandlerAt_eq_mem h
    · exact List.mem_cons_of_mem _ (ih h)

theorem strMkData (l : List Char) : (String.mk l).data = l := rfl

theorem sanitizeHtml_clean (s : String) :
    '<' ∉ (sanitizeHtml s).data ∧ '>' ∉ (sanitizeHtml s).data ∧
    '"' ∉ (sanitizeHtml s).data ∧ '\'' ∉ (sanitizeHtml s).data ∧
    '\x60' ∉ (sanitizeHtml s).data ∧ '=' ∉ (sanitizeHtml s).data ∧
    '/' ∉ (sanitizeHtml s).data := by
  by_cases h : s = ""
  · subst h
    refine ⟨by decide, by decide, by decide, by decide, by decide, by decide, by decide⟩
  · rw [sanitizeHtml, if_neg h, strMkData]
    refine ⟨?_, ?_, ?_, ?_, ?_, ?_, ?_⟩
    · exact sanitizeHtmlL_not_mem s.data (escapePass_no_lt s.data)
    · exact sanitizeHtmlL_not_mem s.data (escapePass_no_gt s.data)
    · exact sanitizeHtmlL_not_mem s.data (escapePass_no_quot s.data)
    · exact sanitizeHtmlL_not_mem s.data (escapePass_no_apos s.data)
    · exact sanitizeHtmlL_not_mem s.data (escapePass_no_tick s.data)
    · exact sanitizeHtmlL_not_mem s.data (escapePass_no_eq s.data)
    · exact sanitizeHtmlL_not_mem s.data (escapePass_no_slash s.data)

/-- Claim C10: for every input string, the output of `sanitizeHtml`
contains no raw occurrence of any of the characters `<`, `>`, `"`, `'`,
`` ` ``, `=`, or `/` (each is replaced by its HTML entity and no later
removal step reintroduces one), and on the empty string (the falsy string
input) `sanitizeHtml` returns the empty string. -/
theorem sanitizeHtml_no_raw_specials (s : String) :
    '<' ∉ (sanitizeHtml s).data ∧ '>' ∉ (sanitizeHtml s).data ∧
    '"' ∉ (sanitizeHtml s).data ∧ '\'' ∉ (sanitizeHtml s).data ∧
    '\x60' ∉ (sanitizeHtml s).data ∧ '=' ∉ (sanitizeHtml s).data ∧
    '/' ∉ (sanitizeHtml s).data ∧ sanitizeHtml "" = "" :=
  ⟨(sanitizeHtml_clean s).1, (sanitizeHtml_clean s).2.1, (sanitizeHtml_clean s).2.2.1,
   (sanitizeHtml_clean s).2.2.2.1, (sanitizeHtml_clean s).2.2.2.2.1,
   (sanitizeHtml_clean s).2.2.2.2.2.1, (sanitizeHtml_clean s).2.2.2.2.2.2, rfl⟩

/-- Claim C4, counterexample: the input `"javajavascript:script:"`
contains the raw substring `javascript:`, and so does its `sanitizeHtml`
image — the single-pass `.replace(/javascript:/gi, '')` removes the inner
occurrence and thereby joins `java` and `script:` into a fresh
occurrence, which no later step removes.  This falsifies the claim that
the output contains no raw `javascript:` whenever the input contains
one. -/
theorem sanitizeHtml_javascript_reintroduced :
    containsSub "javascript:".data "javajavascript:script:".data = true ∧
    containsSub "javascript:".data (sanitizeHtml "javajavascript:script:").data = true := by
  constructor
  · decide
  · decide

/-- Claim C4 as amended: for every input string, `sanitizeHtml`'s output
contains no raw `<script` substring and no raw `on<word>=` event-handler
pattern — every `<` and every `=` has been replaced by an HTML entity and
no removal step reintroduces one.  The `javascript:` guarantee of the
original claim does not hold (see the counterexample): that removal is a
single pass and deleting an occurrence can join the surrounding text into
a new occurrence. -/
theorem sanitizeHtml_script_onhandler_absent (s : String) :
    containsSub "<script".data (sanitizeHtml s).data = false ∧
    onHandlerMatch (sanitizeHtml s).data = false := by
  constructor
  · cases h : containsSub "<script".data (sanitizeHtml s).data with
    | false => rfl
    | true =>
      exact absurd (containsSub_head_mem h) (sanitizeHtml_clean s).1
  · cases h : onHandlerMatch (sanitizeHtml s).data with
    | false => rfl
    | true =>
      exact absurd (onHandlerMatch_eq_mem h)
        (sanitizeHtml_clean s).2.2.2.2.2.1

/-! ## Lemmas about the validator and the orchestrator pipeline -/

theorem validate_empty_iff (p s c : String) :
    validateEmailInput p s c = [] ↔ codeValid p s c = true := by
  unfold validateEmailInput codeValid
  by_cases h1 : trimNonempty p = true <;>
  by_cases h2 : p.length > 100 <;>
  by_cases h3 : pillarRegexTest p = true <;>
  by_cases h4 : trimNonempty s = true <;>
  by_cases h5 : s.length > 200 <;>
  by_cases h6 : trimNonempty c = true <;>
  by_cases h7 : c.length > 10000 <;>
  by_cases h8 : suspiciousMatch (s ++ " " ++ c) = true <;>
  (simp_all [Nat.not_lt]; try (split <;> simp_all))

theorem trimNonempty_ne {x : String} (h : trimNonempty x = true) : ¬(x = "") := by
  intro he
  subst he
  simp [trimNonempty, jsTrim] at h

theorem trimNonempty_pos {x : String} (h : trimNonempty x = true) : 1 ≤ x.length := by
  cases x with
  | mk d =>
    cases d with
    | nil => simp [trimNonempty, jsTrim] at h
    | cons a as => simp [String.length]

theorem codeValid_spec3 {p s c : String} (h : codeValid p s c = true) :
    spec3Holds p s c = true := by
  unfold codeValid at h
  unfold spec3Holds
  simp only [Bool.and_eq_true, decide_eq_true_eq] at h ⊢
  obtain ⟨⟨⟨⟨⟨⟨⟨h1, h2⟩, h3⟩, h4⟩, h5⟩, h6⟩, h7⟩, h8⟩ := h
  have h3' := h3
  simp only [pillarRegexTest, Bool.and_eq_true] at h3'
  refine ⟨⟨⟨⟨⟨trimNonempty_pos h1, h2⟩, h3'.2⟩, ?_, h5⟩, ?_, h7⟩, h8⟩
  · simpa using trimNonempty_ne h4
  · simpa using trimNonempty_ne h6

theorem serve_after_validation (inp : ServeInput) (hdr uid pillar subject content : String)
    (hm : inp.method = "POST") (he : inp.envOk = true)
    (hh : inp.authHeader = some hdr) (hb : startsWithCL "Bearer ".data hdr.data = true)
    (ht1 : ¬(tokenOf hdr = "")) (ht2 : ¬((tokenOf hdr).length < 10))
    (hto : inp.authTimedOut = false) (hu : inp.authUser = DbResult.ok uid)
    (hun : ¬(uid = "")) (hr : (checkRateLimit inp.now inp.rateState).1 = true)
    (hae : inp.adminErr = false) (had : inp.adminData = some ())
    (hbody : inp.body = some (pillar, subject, content)) :
    serve inp =
      if !(validateEmailInput pillar subject content = []) then
        some (errOut 400 ["email_validation_failed"] false)
      else
        resolveAndDispatch inp pillar := by
  simp only [serve, hm, he, hh, hb, hto, hu, hr, hae, had, hbody]
  simp [ht1, ht2, hun]

/-- Claim C3, counterexample: the pillar `" "` (a single space) matches
the spec's constraint `^[A-Za-z0-9\s\-_]{1,100}$` — so with a harmless
subject and content every §3 constraint holds — yet `validateEmailInput`
returns the non-empty list `["Pillar is required"]`, because the code
first requires each field to trim to a non-empty string. -/
theorem validate_spec3_counterexample :
    spec3Holds " " "Hi" "Hello" = true ∧
    ¬(validateEmailInput " " "Hi" "Hello" = []) := by
  constructor
  · decide
  · decide

/-- Claim C3 as amended: `validateEmailInput` returns a non-empty error
list whenever any §3 constraint is violated, and returns the empty list
exactly when each of pillar, subject and content trims to a non-empty
string, the lengths are within 100/200/10000, the pillar passes its
character class, and the combined subject and content match no denylist
pattern (the spec's pillar regex alone is not sufficient: a
whitespace-only field passes it but is still rejected); on a non-empty
result the orchestrator responds 400 with no directory query and no
send. -/
theorem validate_totality_amended :
    (∀ p s c, validateEmailInput p s c = [] ↔ codeValid p s c = true) ∧
    (∀ p s c, spec3Holds p s c = false → ¬(validateEmailInput p s c = [])) ∧
    (∀ (inp : ServeInput) (hdr uid pillar subject content : String),
      inp.method = "POST" → inp.envOk = true →
      inp.authHeader = some hdr → startsWithCL "Bearer ".data hdr.data = true →
      ¬(tokenOf hdr = "") → ¬((tokenOf hdr).length < 10) →
      inp.authTimedOut = false → inp.authUser = DbResult.ok uid → ¬(uid = "") →
      (checkRateLimit inp.now inp.rateState).1 = true →
      inp.adminErr = false → inp.adminData = some () →
      inp.body = some (pillar, subject, content) →
      ¬(validateEmailInput pillar subject content = []) →
      serve inp = some (errOut 400 ["email_validation_failed"] false)) := by
  refine ⟨validate_empty_iff, ?_, ?_⟩
  · intro p s c hf hempty
    exact absurd (codeValid_spec3 ((validate_empty_iff p s c).mp hempty)) (by simp [hf])
  · intro inp hdr uid pillar subject content hm he hh hb ht1 ht2 hto hu hun hr hae had hbody hval
    rw [serve_after_validation inp hdr uid pillar subject content hm he hh hb ht1 ht2
      hto hu hun hr hae had hbody]
    simp [hval]

theorem validate_totality_amended_witness :
    serve { baseInp with body := some ("", "Update", "Hello team") } =
      some (errOut 400 ["email_validation_failed"] false) :=
  validate_totality_amended.2.2 _ "Bearer tok1234567890" "u1" "" "Update" "Hello team"
    rfl rfl rfl (by decide) (by decide) (by decide) rfl rfl (by decide) (by decide)
    rfl rfl rfl (by decide)

/-- Claim C7: when the authenticated caller is absent from the admin
allow-list or the allow-list lookup errors, the handler fails closed:
status 403, exactly one audit entry (`unauthorized_email_attempt`), no
directory query, no dispatch, and zero transport calls. -/
theorem serve_unauthorized_admin (inp : ServeInput) (hdr uid : String)
    (hm : inp.method = "POST") (he : inp.envOk = true)
    (hh : inp.authHeader = some hdr) (hb : startsWithCL "Bearer ".data hdr.data = true)
    (ht1 : ¬(tokenOf hdr = "")) (ht2 : ¬((tokenOf hdr).length < 10))
    (hto : inp.authTimedOut = false) (hu : inp.authUser = DbResult.ok uid)
    (hun : ¬(uid = "")) (hr : (checkRateLimit inp.now inp.rateState).1 = true)
    (ha : inp.adminErr = true ∨ inp.adminData = none) :
    serve inp = some (errOut 403 ["unauthorized_email_attempt"] false) := by
  simp only [serve, hm, he, hh, hb, hto, hu, hr]
  rcases ha with ha | ha <;> simp [ht1, ht2, hun, ha]

theorem serve_unauthorized_admin_witness :
    serve { baseInp with adminData := none } =
      some (errOut 403 ["unauthorized_email_attempt"] false) :=
  serve_unauthorized_admin _ "Bearer tok1234567890" "u1" rfl rfl rfl (by decide)
    (by decide) (by decide) rfl rfl (by decide) (by decide) (Or.inr rfl)

/-! ## Rate limiter theorems -/

/-- Claim C5: with no record or an elapsed window the limiter resets to
`{count:1, resetTime: now+WINDOW}` and allows; inside the window it
allows iff the incremented count is at most `RATE_LIMIT_MAX_REQUESTS`;
concretely, of 11 calls inside one window the first 10 are allowed and
the 11th denied, and a call after the window elapses is allowed again. -/
theorem checkRateLimit_behaviour :
    (∀ now, checkRateLimit now none = (true, ⟨1, now + RATE_LIMIT_WINDOW⟩)) ∧
    (∀ now r, now > r.resetTime →
      checkRateLimit now (some r) = (true, ⟨1, now + RATE_LIMIT_WINDOW⟩)) ∧
    (∀ now r, ¬(now > r.resetTime) →
      ((checkRateLimit now (some r)).1 = true ↔
        r.count + 1 ≤ RATE_LIMIT_MAX_REQUESTS)) ∧
    (runRateCalls (List.replicate 11 0 ++ [RATE_LIMIT_WINDOW + 1]) none).1 =
      List.replicate 10 true ++ [false, true] := by
  refine ⟨fun now => rfl, ?_, ?_, by decide⟩
  · intro now r h
    simp [checkRateLimit, h]
  · intro now r h
    simp only [checkRateLimit, if_neg h]
    unfold RATE_LIMIT_MAX_REQUESTS
    split
    · next hc => simp; omega
    · next hc => simp; omega

theorem checkRateLimit_behaviour_witness :
    checkRateLimit (RATE_LIMIT_WINDOW + 1) (some ⟨5, RATE_LIMIT_WINDOW⟩) =
      (true, ⟨1, RATE_LIMIT_WINDOW + 1 + RATE_LIMIT_WINDOW⟩) ∧
    ((checkRateLimit 7 (some ⟨10, 100⟩)).1 = true ↔ 10 + 1 ≤ RATE_LIMIT_MAX_REQUESTS) :=
  ⟨checkRateLimit_behaviour.2.1 _ _ (by decide),
   checkRateLimit_behaviour.2.2.1 7 ⟨10, 100⟩ (by decide)⟩

/-! ## Dispatch engine theorems -/

theorem sendOne_settles {t : Employee → TransportOutcome} {e : Employee}
    (h : emailRegexTest e.email = true → ¬(t e = TransportOutcome.hang)) :
    ∃ r, sendOne t e = some r := by
  unfold sendOne
  split
  · next hv =>
    cases ht : t e with
    | ok => exact ⟨_, rfl⟩
    | raise msg => exact ⟨_, rfl⟩
    | hang => exact absurd ht (h hv)
  · exact ⟨_, rfl⟩

theorem sendEmails_total (t : Employee → TransportOutcome) (emps : List Employee)
    (h : ∀ e, e ∈ emps → emailRegexTest e.email = true → ¬(t e = TransportOutcome.hang)) :
    ∃ rs, sendEmails t emps = some rs ∧ rs.length = emps.length ∧
      ∀ i : Nat, rs[i]? = (emps[i]?).bind (sendOne t) := by
  induction emps with
  | nil =>
    refine ⟨[], rfl, rfl, fun i => ?_⟩
    simp [sendEmails, promiseAll]
  | cons e es ih =>
    obtain ⟨rs, hrs, hlen, hidx⟩ := ih fun x hx => h x (List.mem_cons_of_mem _ hx)
    obtain ⟨r, hr⟩ := sendOne_settles (h e (List.mem_cons_self _ _))
    have hps : promiseAll (es.map (sendOne t)) = some rs := hrs
    refine ⟨r :: rs, ?_, by simp [hlen], fun i => ?_⟩
    · show promiseAll (sendOne t e :: es.map (sendOne t)) = some (r :: rs)
      simp [promiseAll, hr, hps]
    · cases i with
      | zero => simp [hr]
      | succ n => simpa using hidx n

theorem success_add_failure (rs : List SendResult) :
    successCount rs + failureCount rs = rs.length := by
  induction rs with
  | nil => rfl
  | cons r rest ih =>
    cases hr : r.success <;>
      simp [successCount, failureCount, hr, List.filter] at ih ⊢ <;> omega

/-- Claim C1: for every recipient list and every settling behaviour of
the transport (resolve or throw per recipient), the dispatch produces
exactly one `SendResult` per recipient (same length, positionally
matched), one recipient's thrown error never affects the others'
results, and `successCount + failureCount` equals the recipient count
with neither count exceeding it; concretely, with five recipients where
only #3's send throws, the other four results have `success:true` and
the counts are 4 and 1. -/
theorem dispatch_fanout_counts :
    (∀ (t : Employee → TransportOutcome) (emps : List Employee),
      (∀ e, e ∈ emps → ¬(t e = TransportOutcome.hang)) →
      ∃ rs, sendEmails t emps = some rs ∧
        rs.length = emps.length ∧
        (∀ i : Nat, rs[i]? = (emps[i]?).bind (sendOne t)) ∧
        successCount rs + failureCount rs = emps.length ∧
        successCount rs ≤ emps.length ∧ failureCount rs ≤ emps.length) ∧
    sendEmails failThird fiveEmps = some
      [⟨true, "e1@x.co", none⟩, ⟨true, "e2@x.co", none⟩,
       ⟨false, "e3@x.co", some "Send failed"⟩,
       ⟨true, "e4@x.co", none⟩, ⟨true, "e5@x.co", none⟩] ∧
    successCount [⟨true, "e1@x.co", none⟩, ⟨true, "e2@x.co", none⟩,
       ⟨false, "e3@x.co", some "Send failed"⟩,
       ⟨true, "e4@x.co", none⟩, ⟨true, "e5@x.co", none⟩] = 4 ∧
    failureCount [⟨true, "e1@x.co", none⟩, ⟨true, "e2@x.co", none⟩,
       ⟨false, "e3@x.co", some "Send failed"⟩,
       ⟨true, "e4@x.co", none⟩, ⟨true, "e5@x.co", none⟩] = 1 := by
  refine ⟨?_, by decide, by decide, by decide⟩
  intro t emps h
  obtain ⟨rs, hrs, hlen, hidx⟩ := sendEmails_total t emps fun e he _ => h e he
  refine ⟨rs, hrs, hlen, hidx, ?_, ?_, ?_⟩
  · rw [success_add_failure, hlen]
  · exact hlen ▸ List.length_filter_le _ _
  · exact hlen ▸ List.length_filter_le _ _

theorem dispatch_fanout_counts_witness :
    ∃ rs, sendEmails failThird fiveEmps = some rs ∧
      rs.length = fiveEmps.length ∧
      (∀ i : Nat, rs[i]? = (fiveEmps[i]?).bind (sendOne failThird)) ∧
      successCount rs + failureCount rs = fiveEmps.length ∧
      successCount rs ≤ fiveEmps.length ∧ failureCount rs ≤ fiveEmps.length :=
  dispatch_fanout_counts.1 failThird fiveEmps (by decide)

theorem sendEmails_hang (t : Employee → TransportOutcome) (emps : List Employee)
    (e : Employee) (he : e ∈ emps) (hv : emailRegexTest e.email = true)
    (hh : t e = TransportOutcome.hang) : sendEmails t emps = none := by
  induction emps with
  | nil => cases he
  | cons a as ih =>
    rcases List.mem_cons.mp he with h | h
    · subst h
      show promiseAll (sendOne t e :: as.map (sendOne t)) = none
      have hnone : sendOne t e = none := by simp [sendOne, hv, hh]
      simp [promiseAll, hnone]
    · have hn : promiseAll (as.map (sendOne t)) = none := ih h
      show promiseAll (sendOne t a :: as.map (sendOne t)) = none
      cases sendOne t a <;> simp [promiseAll, hn]

/-- Claim C2, counterexample: a transport invocation that never settles
is awaited with no individual timeout and the batch with no global
timeout, so with a single recipient whose send never settles the whole
dispatch never completes — no `SendResult{success:false}` is ever
produced for it and nothing bounds the wait, contradicting the claimed
5-second per-send and 15-second batch timeouts. -/
theorem dispatch_no_timeout_counterexample :
    sendEmails (fun _ => TransportOutcome.hang) [⟨"A", "a@b.cd", "Eng"⟩] = none := by
  decide

/-- Claim C2 as amended: a thrown transport error for one recipient is
caught and converted to `SendResult{success:false, error:'Send failed'}`
without propagating to sibling sends; however the code imposes no
per-send timeout and no global batch timeout — if every (validly
addressed) recipient's transport call settles the batch completes with
errors recorded per recipient, while one non-settling call leaves the
request waiting indefinitely.  (The handler's only 5-second timeout is
on the authentication call.) -/
theorem dispatch_error_isolation_no_timeout :
    (∀ (t : Employee → TransportOutcome) (emps : List Employee),
      (∀ e, e ∈ emps → emailRegexTest e.email = true → ¬(t e = TransportOutcome.hang)) →
      ∃ rs, sendEmails t emps = some rs ∧
        ∀ (i : Nat) e msg, emps[i]? = some e → t e = TransportOutcome.raise msg →
          emailRegexTest e.email = true →
          rs[i]? = some ⟨false, e.email, some "Send failed"⟩) ∧
    (∀ (t : Employee → TransportOutcome) (emps : List Employee) (e : Employee),
      e ∈ emps → emailRegexTest e.email = true → t e = TransportOutcome.hang →
      sendEmails t emps = none) := by
  constructor
  · intro t emps h
    obtain ⟨rs, hrs, _, hidx⟩ := sendEmails_total t emps h
    refine ⟨rs, hrs, fun i e msg hie ht hv => ?_⟩
    rw [hidx i, hie]
    simp [sendOne, hv, ht]
  · exact sendEmails_hang

theorem dispatch_error_isolation_no_timeout_witness :
    sendEmails (fun _ => TransportOutcome.hang) [⟨"B", "b@c.de", "Eng"⟩] = none :=
  dispatch_error_isolation_no_timeout.2 _ _ ⟨"B", "b@c.de", "Eng"⟩
    (by decide) (by decide) rfl

/-! ## Recipient-resolution and simulation theorems -/

/-- Claim C6: once a validated request reaches recipient resolution, a
query error yields the 500 response with its `email_database_error`
audit entry and no send; an empty result yields the 404 response with
its `email_no_recipients` audit entry and no send; a result of more than
500 employees yields the 400 response with its
`email_too_many_recipients` audit entry and no send; a result of at most
500 proceeds past resolution (every completed outcome carries the
`email_send_initiated` audit entry and the directory was queried); and
the underlying fetch is bounded by the hard limit of 1000 rows. -/
theorem recipient_resolution_outcomes (inp : ServeInput)
    (hdr uid pillar subject content : String)
    (hm : inp.method = "POST") (he : inp.envOk = true)
    (hh : inp.authHeader = some hdr) (hb : startsWithCL "Bearer ".data hdr.data = true)
    (ht1 : ¬(tokenOf hdr = "")) (ht2 : ¬((tokenOf hdr).length < 10))
    (hto : inp.authTimedOut = false) (hu : inp.authUser = DbResult.ok uid)
    (hun : ¬(uid = "")) (hr : (checkRateLimit inp.now inp.rateState).1 = true)
    (hae : inp.adminErr = false) (had : inp.adminData = some ())
    (hbody : inp.body = some (pillar, subject, content))
    (hval : validateEmailInput pillar subject content = []) :
    (inp.directory = DbResult.err →
      serve inp = some (errOut 500 ["email_database_error"] true)) ∧
    (∀ rows, inp.directory = DbResult.ok rows →
      ((employeesQuery rows pillar).isEmpty = true →
        serve inp = some (errOut 404 ["email_no_recipients"] true)) ∧
      ((employeesQuery rows pillar).length > 500 →
        serve inp = some (errOut 400 ["email_too_many_recipients"] true)) ∧
      ((employeesQuery rows pillar).isEmpty = false →
        ¬((employeesQuery rows pillar).length > 500) →
        ∀ out, serve inp = some out →
          out.audits.head? = some "email_send_initiated" ∧ out.dirQueried = true)) ∧
    (∀ rows q, (employeesQuery rows q).length ≤ 1000) := by
  have hserve : serve inp = resolveAndDispatch inp pillar := by
    rw [serve_after_validation inp hdr uid pillar subject content hm he hh hb ht1 ht2
      hto hu hun hr hae had hbody]
    simp [hval]
  refine ⟨?_, ?_, ?_⟩
  · intro hd
    rw [hserve]
    simp [resolveAndDispatch, hd]
  · intro rows hd
    refine ⟨?_, ?_, ?_⟩
    · intro hempty
      rw [hserve]
      simp [resolveAndDispatch, hd, hempty]
    · intro hbig
      have hempty : (employeesQuery rows pillar).isEmpty = false := by
        cases hq : employeesQuery rows pillar with
        | nil => rw [hq] at hbig; simp at hbig
        | cons a as => simp
      rw [hserve]
      simp [resolveAndDispatch, hd, hempty, hbig]
    · intro hempty hsmall out hout
      rw [hserve] at hout
      simp only [resolveAndDispatch, hd] at hout
      rw [if_neg (by simp [hempty]), if_neg (by simpa using hsmall)] at hout
      split at hout
      · split at hout
        · injection hout with hout
          subst hout
          exact ⟨rfl, rfl⟩
        · split at hout
          · exact absurd hout (by simp)
          · split at hout
            · injection hout with hout
              subst hout
              exact ⟨rfl, rfl⟩
            · injection hout with hout
              subst hout
              exact ⟨rfl, rfl⟩
      · injection hout with hout
        subst hout
        exact ⟨rfl, rfl⟩
  · intro rows q
    have := List.length_take 1000 (rows.filter (fun e => e.pillar = q))
    simp only [employeesQuery]
    omega

set_option maxRecDepth 400000 in
theorem recipient_resolution_outcomes_witness :
    serve { baseInp with
        directory := DbResult.ok (List.replicate 501 ⟨"A", "a@x.co", "Eng"⟩) } =
      some (errOut 400 ["email_too_many_recipients"] true) :=
  (((recipient_resolution_outcomes _ "Bearer tok1234567890" "u1" "Eng" "Update" "Hello team"
      rfl rfl rfl (by decide) (by decide) (by decide) rfl rfl (by decide) (by decide)
      rfl rfl rfl (by decide)).2.1 _ rfl).2.1 (by decide))

/-- Claim C9 (implicit simulation mode): when the Gmail credentials are
not both present, a request that passes every check still gets the 200
success response whose `recipients` field is the full resolved employee
count, tagged as simulated (`email_send_simulated` audit entry), while
no transport call is made and no dispatch happens. -/
theorem simulated_send_mode (inp : ServeInput)
    (hdr uid pillar subject content : String) (rows : List Employee)
    (hm : inp.method = "POST") (he : inp.envOk = true)
    (hh : inp.authHeader = some hdr) (hb : startsWithCL "Bearer ".data hdr.data = true)
    (ht1 : ¬(tokenOf hdr = "")) (ht2 : ¬((tokenOf hdr).length < 10))
    (hto : inp.authTimedOut = false) (hu : inp.authUser = DbResult.ok uid)
    (hun : ¬(uid = "")) (hr : (checkRateLimit inp.now inp.rateState).1 = true)
    (hae : inp.adminErr = false) (had : inp.adminData = some ())
    (hbody : inp.body = some (pillar, subject, content))
    (hval : validateEmailInput pillar subject content = [])
    (hd : inp.directory = DbResult.ok rows)
    (hne : (employeesQuery rows pillar).isEmpty = false)
    (hle : ¬((employeesQuery rows pillar).length > 500))
    (hcreds : credsPresent inp.gmailUser inp.gmailPassword = false) :
    serve inp = some ⟨200, ["email_send_initiated", "email_send_simulated"], true, false, 0,
      some (employeesQuery rows pillar).length, none, true⟩ := by
  rw [serve_after_validation inp hdr uid pillar subject content hm he hh hb ht1 ht2
    hto hu hun hr hae had hbody]
  simp only [hval]
  simp [resolveAndDispatch, hd, hne, hle, hcreds]

theorem simulated_send_mode_witness :
    serve { baseInp with gmailUser := none } =
      some ⟨200, ["email_send_initiated", "email_send_simulated"], true, false, 0,
        some 2, none, true⟩ :=
  simulated_send_mode _ "Bearer tok1234567890" "u1" "Eng" "Update" "Hello team"
    [⟨"A", "a@x.co", "Eng"⟩, ⟨"B", "b@x.co", "Eng"⟩, ⟨"C", "c@x.co", "Ops"⟩]
    rfl rfl rfl (by decide) (by decide) (by decide) rfl rfl (by decide) (by decide)
    rfl rfl rfl (by decide) rfl (by decide) (by decide) rfl

/-! ## Audit recorder theorems -/

theorem jsTake_len_le (n : Nat) (s : String) : (jsTake n s).length ≤ n := by
  simp only [jsTake, String.length]
  have := List.length_take n s.data
  omega

/-- Claim C8: `logAdminAction` never propagates an error to its caller,
whatever the audit store, the JSON runtime, or the inputs do (the
surrounding catch absorbs serialization failures and store rejections);
and every row it hands to the store has its sanitized action truncated
to at most 100 characters, its serialized details to at most 1000, the
user agent to at most 500, and the client IP (first forwarded-for hop,
falling back to the real-IP header, else `Unknown`) to at most 45. -/
theorem logAdminAction_never_throws :
    (∀ store jsonOk userId action details m,
      ∃ r, logAdminAction store jsonOk userId action details m = Except.ok r) ∧
    (∀ store jsonOk userId action details m row,
      logAdminAction store jsonOk userId action details m = Except.ok (some row) →
      row.action.length ≤ 100 ∧ row.detailsSer.length ≤ 1000 ∧
      row.user_agent.length ≤ 500 ∧ row.ip_address.length ≤ 45 ∧
      row.ip_address = clientIp m ∧ row.user_agent = uaOf m ∧
      row.admin_user_id = userId) := by
  constructor
  · intro store jsonOk userId action details m
    unfold logAdminAction
    cases logAdminActionTry store jsonOk userId action details m with
    | ok r => exact ⟨r, rfl⟩
    | error _ => exact ⟨none, rfl⟩
  · intro store jsonOk userId action details m row h
    unfold logAdminAction at h
    cases htry : logAdminActionTry store jsonOk userId action details m with
    | error msg => rw [htry] at h; exact absurd h (by simp)
    | ok r =>
      rw [htry] at h
      injection h with h
      subst h
      unfold logAdminActionTry at htry
      split at htry
      · exact absurd htry (by simp)
      · next ds hds =>
        simp only [] at htry
        split at htry
        · injection htry with htry
          injection htry with htry
          subst htry
          refine ⟨jsTake_len_le _ _, ?_, jsTake_len_le _ _, jsTake_len_le _ _, rfl, rfl, rfl⟩
          cases details with
          | obj ser =>
            simp only [detailsSerialize] at hds
            split at hds
            · injection hds with hds
              subst hds
              exact jsTake_len_le _ _
            · exact absurd hds (by simp)
          | prim s =>
            simp only [detailsSerialize] at hds
            injection hds with hds
            subst hds
            exact jsTake_len_le _ _
        · exact absurd htry (by simp)

theorem logAdminAction_never_throws_witness :
    (∃ r, logAdminAction (fun _ => CallOutcome.reject "store down") (fun _ => false)
      "u1" "email_send_initiated" (DetailsV.obj "0123456789")
      ⟨some "UA", some " 1.2.3.4 , 5.6.7.8", none⟩ = Except.ok r) ∧
    ((⟨"u1", "act", "note", "Unknown", "Agent"⟩ : AuditRecord).action.length ≤ 100 ∧
      (⟨"u1", "act", "note", "Unknown", "Agent"⟩ : AuditRecord).detailsSer.length ≤ 1000 ∧
      (⟨"u1", "act", "note", "Unknown", "Agent"⟩ : AuditRecord).user_agent.length ≤ 500 ∧
      (⟨"u1", "act", "note", "Unknown", "Agent"⟩ : AuditRecord).ip_address.length ≤ 45 ∧
      (⟨"u1", "act", "note", "Unknown", "Agent"⟩ : AuditRecord).ip_address =
        clientIp ⟨some "Agent", none, none⟩ ∧
      (⟨"u1", "act", "note", "Unknown", "Agent"⟩ : AuditRecord).user_agent =
        uaOf ⟨some "Agent", none, none⟩ ∧
      (⟨"u1", "act", "note", "Unknown", "Agent"⟩ : AuditRecord).admin_user_id = "u1") :=
  ⟨logAdminAction_never_throws.1 _ _ _ _ _ _,
   logAdminAction_never_throws.2 (fun _ => CallOutcome.ok) (fun _ => true)
     "u1" "act" (DetailsV.prim "note") ⟨some "Agent", none, none⟩
     ⟨"u1", "act", "note", "Unknown", "Agent"⟩ rfl⟩

end PillarPulse
